import Mathlib

set_option maxRecDepth 8000

/-!
Verification of the point-cloud record decoder (`ply_wrapper.py`) of the
3dgs-analysis-pipeline repository.

The decoder is shallowly embedded: a PLY file is a list of element groups,
each a list of named scalar columns; numpy arrays are modelled as a shape
together with row-major flat data (so that `squeeze` and `concatenate` keep
their numpy meaning); Python exceptions become an explicit error type and
every fallible operation returns `Except`.  Per-point scalar values are
carried by an abstract type `α`: the decoder only copies and rearranges
values, it never computes with them, so nothing is lost by not using
floating point.
-/

/-- One property of a PLY element group: a named per-point scalar column.
In plyfile, `element[name]` yields the numpy column of that property. -/
structure PlyProperty (α : Type) where
  name : String
  vals : List α

deriving instance DecidableEq for PlyProperty

/-- One PLY element group: its properties in declaration order.  plyfile
stores the rows as one numpy structured array, so in any real file all
columns of a group have the same length. -/
structure PlyElement (α : Type) where
  properties : List (PlyProperty α)

deriving instance DecidableEq for PlyElement

/-- A parsed PLY file: its element groups in order (`PlyData.elements`). -/
structure PlyData (α : Type) where
  elements : List (PlyElement α)

deriving instance DecidableEq for PlyData

/-- The value passed to `PlyWrapper.__init__` or to `matching_dimensions`:
a filesystem path, an in-memory `PlyData`, or (constructor `other`) a value
of any type that is neither `str`/`Path` nor `PlyData`. -/
inductive Source (α : Type) where
  | path (p : String)
  | plyData (d : PlyData α)
  | other

deriving instance DecidableEq for Source

/-- The Python exception kinds the wrapper code can raise.
`valueError` covers both the wrong-type branch of `__init__` and numpy
shape/broadcast errors as well as `int()` parse failures; `keyError` is what
indexing a numpy structured array with a missing field name raises;
`indexError` is `elements[0]` on an empty element list. -/
inductive PlyError where
  | fileNotFoundError (p : String)
  | valueError
  | typeError
  | keyError (field : String)
  | attributeError (nm : String)
  | indexError

deriving instance DecidableEq for PlyError

deriving instance DecidableEq for Except

/-- A numpy ndarray: its shape and its elements in row-major order. -/
structure NDArray (α : Type) where
  shape : List Nat
  data : List α

deriving instance DecidableEq for NDArray

/-- `np.squeeze`: every axis of extent 1 is removed; the data is untouched. -/
def NDArray.squeeze {α : Type} (a : NDArray α) : NDArray α :=
  ⟨a.shape.filter (fun k => k != 1), a.data⟩

/-- Row `i` of a row-major matrix with `k` columns. -/
def rowAt {α : Type} (k : Nat) (data : List α) (i : Nat) : List α :=
  (data.drop (i * k)).take k

/-- All `n` rows of a row-major matrix with `k` columns. -/
def getRows {α : Type} (n k : Nat) (data : List α) : List (List α) :=
  (List.range n).map (rowAt k data)

/-- `np.stack(cols, axis=1)` and the column-assignment loops of
`capture_data`: an `n × cols.length` matrix whose `j`-th column is the
`j`-th list of `cols`. -/
def stackColsMat {α : Type} [Inhabited α] (n : Nat) (cols : List (List α)) : NDArray α :=
  ⟨[n, cols.length], (List.range n).flatMap (fun i => cols.map (fun c => c.getD i default))⟩

def underscoreChar : Char := '_'

def minusChar : Char := '-'

def plusChar : Char := '+'

/-- Digit-string value; `none` unless the list is nonempty and all digits. -/
def digitsValAux : Nat → List Char → Option Nat
  | acc, [] => some acc
  | acc, c :: cs => if c.isDigit then digitsValAux (acc * 10 + (c.toNat - 48)) cs else none

def digitsVal : List Char → Option Nat
  | [] => none
  | cs => digitsValAux 0 cs

def trimChars (cs : List Char) : List Char :=
  ((cs.dropWhile Char.isWhitespace).reverse.dropWhile Char.isWhitespace).reverse

/-- Python `int(s)` on the strings that can reach it here: optional
whitespace, optional sign, then decimal digits; anything else raises
`ValueError` (modelled as `none`).  (Python additionally allows underscores
between digits, but the argument is always the segment of a name after its
last underscore, so it never contains one.) -/
def pyIntChars? (cs0 : List Char) : Option Int :=
  match trimChars cs0 with
  | [] => none
  | c :: rest =>
    if c == minusChar then (digitsVal rest).map (fun n => -(n : Int))
    else if c == plusChar then (digitsVal rest).map (fun n => (n : Int))
    else (digitsVal (c :: rest)).map (fun n => (n : Int))

/-- Python `s.split(chr(95))[-1]`: the part of `s` after its last
underscore (all of `s` when there is none). -/
def lastSegChars (cs : List Char) : List Char :=
  (cs.reverse.takeWhile (fun c => c != underscoreChar)).reverse

/-- `int(name.split(chr(95))[-1])` as used by the sort keys. -/
def suffixInt? (s : String) : Option Int :=
  pyIntChars? (lastSegChars s.data)

/-- The sort key; only consulted on names whose suffix parses. -/
def suffixKey (s : String) : Int :=
  (suffixInt? s).getD 0

/-- The comparison Python `sorted` performs for key `int(suffix)`. -/
def suffLE (a b : String) : Prop :=
  suffixKey a ≤ suffixKey b

instance : DecidableRel suffLE := fun a b => by
  unfold suffLE; infer_instance

instance : IsTotal String suffLE :=
  ⟨fun a b => le_total (suffixKey a) (suffixKey b)⟩

instance : IsTrans String suffLE :=
  ⟨fun _ _ _ h h2 => le_trans h h2⟩

/-- `startsWith` on character lists (second argument is the pattern). -/
def startsWithChars : List Char → List Char → Bool
  | _, [] => true
  | [], _ :: _ => false
  | c :: cs, p :: ps => c == p && startsWithChars cs ps

/-- Python `name.startswith(pre)`. -/
def strStartsWith (s pre : String) : Bool :=
  startsWithChars s.data pre.data

/-- plyfile `element[nm]`: the column of the first property named `nm`
(plyfile never produces duplicate names). -/
def PlyElement.get? {α : Type} (e : PlyElement α) (nm : String) : Option (List α) :=
  (e.properties.find? (fun p => p.name == nm)).map PlyProperty.vals

def PlyElement.propNames {α : Type} (e : PlyElement α) : List String :=
  e.properties.map PlyProperty.name

/-- `[p.name for p in element.properties if p.name.startswith(pre)]`. -/
def groupNames {α : Type} (pre : String) (e : PlyElement α) : List String :=
  e.propNames.filter (fun nm => strStartsWith nm pre)

def keyX : String := "x"
def keyY : String := "y"
def keyZ : String := "z"
def keyOpacity : String := "opacity"
def keyDC0 : String := "f_dc_0"
def keyDC1 : String := "f_dc_1"
def keyDC2 : String := "f_dc_2"
def preFRest : String := "f_rest_"
def preScale : String := "scale_"
def preRot : String := "rot"

/-- The seven properties `capture_data` reads unconditionally. -/
def requiredBase : List String :=
  [keyX, keyY, keyZ, keyOpacity, keyDC0, keyDC1, keyDC2]

/-- `sorted(names, key=lambda x: int(x.split(chr(95))[-1]))`: raises
`ValueError` when some key fails to parse; otherwise a stable sort by the
integer suffix (Mathlib insertion sort with a `le` relation is stable,
like Python sorted). -/
def pySortBySuffix (names : List String) : Except PlyError (List String) :=
  if names.all (fun nm => (suffixInt? nm).isSome) then
    Except.ok (List.insertionSort suffLE names)
  else Except.error PlyError.valueError

/-- The sorted name list of one variable-length group, when it succeeds. -/
def sortedGroup {α : Type} (pre : String) (e : PlyElement α) : List String :=
  List.insertionSort suffLE (groupNames pre e)

/-- `element[nm]` with the `KeyError` a missing field raises. -/
def fetch {α : Type} (e : PlyElement α) (nm : String) : Except PlyError (List α) :=
  match e.get? nm with
  | some v => Except.ok v
  | none => Except.error (PlyError.keyError nm)

/-- numpy raises (ValueError) when a column of the wrong length is stacked
into or broadcast onto an `n`-row array. -/
def requireLen {α : Type} (n : Nat) (v : List α) : Except PlyError (List α) :=
  if v.length = n then Except.ok v else Except.error PlyError.valueError

/-- The column-assignment loop over one sorted name group. -/
def fetchCols {α : Type} (e : PlyElement α) (n : Nat) : List String → Except PlyError (List (List α))
  | [] => Except.ok []
  | nm :: rest => do
    let c ← fetch e nm
    let c2 ← requireLen n c
    let cs ← fetchCols e n rest
    Except.ok (c2 :: cs)

/-- The six arrays `capture_data` stores on the wrapper. -/
structure CapturedArrays (α : Type) where
  xyz : NDArray α
  opacities : NDArray α
  direct_current : NDArray α
  higher_order_shs : NDArray α
  scaling : NDArray α
  rotation : NDArray α

deriving instance DecidableEq for CapturedArrays

/-- Body of `capture_data` on the first element group, in source order:
stack x, y, z; opacity column with a trailing axis; fill an `n × 3 × 1`
zeros array with `f_dc_0..2` and squeeze it; then the three sorted
variable-length groups. -/
def captureElem {α : Type} [Inhabited α] (e : PlyElement α) : Except PlyError (CapturedArrays α) := do
  let xs ← fetch e keyX
  let ys ← fetch e keyY
  let zs ← fetch e keyZ
  let n := xs.length
  let ys2 ← requireLen n ys
  let zs2 ← requireLen n zs
  let os ← fetch e keyOpacity
  let d0 ← fetch e keyDC0
  let d02 ← requireLen n d0
  let d1 ← fetch e keyDC1
  let d12 ← requireLen n d1
  let d2 ← fetch e keyDC2
  let d22 ← requireLen n d2
  let fNames ← pySortBySuffix (groupNames preFRest e)
  let fCols ← fetchCols e n fNames
  let sNames ← pySortBySuffix (groupNames preScale e)
  let sCols ← fetchCols e n sNames
  let rNames ← pySortBySuffix (groupNames preRot e)
  let rCols ← fetchCols e n rNames
  Except.ok
    { xyz := stackColsMat n [xs, ys2, zs2]
      opacities := ⟨[os.length, 1], os⟩
      direct_current := NDArray.squeeze ⟨[n, 3, 1], (stackColsMat n [d02, d12, d22]).data⟩
      higher_order_shs := stackColsMat n fCols
      scaling := stackColsMat n sCols
      rotation := stackColsMat n rCols }

/-- `capture_data`: reads only `elements[0]`; `IndexError` when there is
no element group at all. -/
def capture_data {α : Type} [Inhabited α] (d : PlyData α) : Except PlyError (CapturedArrays α) :=
  match d.elements with
  | [] => Except.error PlyError.indexError
  | e :: _ => captureElem e

/-- The decoded wrapper: the parsed file plus the six arrays
`capture_data` stored on it. -/
structure PlyWrapper (α : Type) where
  ply_data : PlyData α
  xyz : NDArray α
  opacities : NDArray α
  direct_current : NDArray α
  higher_order_shs : NDArray α
  scaling : NDArray α
  rotation : NDArray α

deriving instance DecidableEq for PlyWrapper

/-- The type dispatch of `__init__`: a path is checked for existence and
read (`fs` maps an existing path to its parsed contents), a `PlyData` is
taken as is, and any other value raises
ValueError: Either ply_path or ply_data must be provided. -/
def resolveSource {α : Type} (fs : String → Option (PlyData α)) (src : Source α) :
    Except PlyError (PlyData α) :=
  match src with
  | Source.path p =>
    match fs p with
    | some dd => Except.ok dd
    | none => Except.error (PlyError.fileNotFoundError p)
  | Source.plyData dd => Except.ok dd
  | Source.other => Except.error PlyError.valueError

/-- `PlyWrapper.__init__`: resolve the input, then `capture_data`. -/
def PlyWrapper.init {α : Type} [Inhabited α]
    (fs : String → Option (PlyData α)) (src : Source α) : Except PlyError (PlyWrapper α) := do
  let d ← resolveSource fs src
  let a ← capture_data d
  Except.ok ⟨d, a.xyz, a.opacities, a.direct_current, a.higher_order_shs, a.scaling, a.rotation⟩

def attrPlyData : String := "ply_data"
def attrXyz : String := "xyz"
def attrOpacities : String := "opacities"
def attrDC : String := "direct_current"
def attrHOS : String := "higher_order_shs"
def attrHigherOrder : String := "higher_order"
def attrScaling : String := "scaling"
def attrRotation : String := "rotation"

/-- The methods defined on the PlyWrapper class (hasattr is true on them). -/
def methodNames : List String :=
  ["matching_dimensions", "get_dims", "capture_data", "get_data",
   "get_sh_coeffs_standardized_format"]

/-- A value `getattr(self, name)` can produce: one of the stored numpy
arrays, the stored `PlyData`, or a bound method. -/
inductive AttrValue (α : Type) where
  | arr (a : NDArray α)
  | ply (d : PlyData α)
  | method (nm : String)

deriving instance DecidableEq for AttrValue

/-- `getattr(self, a)` / `hasattr(self, a)` for the attributes the class
defines.  Note there is no attribute named `higher_order`: the stored
array attribute is `higher_order_shs`. -/
def PlyWrapper.getattr {α : Type} (w : PlyWrapper α) (a : String) : Option (AttrValue α) :=
  if a = attrPlyData then some (AttrValue.ply w.ply_data)
  else if a = attrXyz then some (AttrValue.arr w.xyz)
  else if a = attrOpacities then some (AttrValue.arr w.opacities)
  else if a = attrDC then some (AttrValue.arr w.direct_current)
  else if a = attrHOS then some (AttrValue.arr w.higher_order_shs)
  else if a = attrScaling then some (AttrValue.arr w.scaling)
  else if a = attrRotation then some (AttrValue.arr w.rotation)
  else if methodNames.contains a then some (AttrValue.method a)
  else none

/-- The non-empty branch of `get_data`: build the dict entry for each
requested name; `AttributeError` naming the first name that is not an
attribute of the wrapper. -/
def selectLoop {α : Type} (w : PlyWrapper α) : List String → Except PlyError (List (String × AttrValue α))
  | [] => Except.ok []
  | a :: rest =>
    match w.getattr a with
    | some v => (selectLoop w rest).map (fun t => (a, v) :: t)
    | none => Except.error (PlyError.attributeError a)

/-- `get_data(attrs)`: the full six-entry dict when `attrs` is empty or
`None` (the dict key of the higher-order array is `higher_order`, though
the attribute it reads is `higher_order_shs`); otherwise a
`getattr`-driven loop over the requested names. -/
def PlyWrapper.get_data {α : Type} (w : PlyWrapper α) (attrs : List String) :
    Except PlyError (List (String × AttrValue α)) :=
  if attrs.isEmpty then
    Except.ok
      [(attrXyz, AttrValue.arr w.xyz), (attrOpacities, AttrValue.arr w.opacities),
       (attrDC, AttrValue.arr w.direct_current), (attrHigherOrder, AttrValue.arr w.higher_order_shs),
       (attrScaling, AttrValue.arr w.scaling), (attrRotation, AttrValue.arr w.rotation)]
  else selectLoop w attrs

def ndSize : String := "size"
def ndNdim : String := "ndim"
def ndCount : String := "count"

/-- The integer-valued attributes a 1-D numpy array actually has (`size`,
`ndim`, ...).  There is no `count` attribute on numpy arrays — `count` is
a method of Python lists — so looking it up raises `AttributeError`. -/
def ndarrayNatAttr? {α : Type} (v : List α) (a : String) : Option Nat :=
  if a = ndSize then some v.length
  else if a = ndNdim then some 1
  else none

/-- `column.count` as `matching_dimensions` writes it. -/
def countAttr {α : Type} (v : List α) : Except PlyError Nat :=
  match ndarrayNatAttr? v ndCount with
  | some k => Except.ok k
  | none => Except.error (PlyError.attributeError ndCount)

/-- `data.elements[0]` with its `IndexError`. -/
def firstElem {α : Type} (d : PlyData α) : Except PlyError (PlyElement α) :=
  match d.elements with
  | [] => Except.error PlyError.indexError
  | e :: _ => Except.ok e

/-- The type dispatch at the top of `matching_dimensions`: a path is read
with `PlyData.read` (raising FileNotFoundError when absent), a `PlyData`
is used directly, and any other value raises TypeError. -/
def resolveOther {α : Type} (fs : String → Option (PlyData α)) (b : Source α) :
    Except PlyError (PlyData α) :=
  match b with
  | Source.path p =>
    match fs p with
    | some dd => Except.ok dd
    | none => Except.error (PlyError.fileNotFoundError p)
  | Source.plyData dd => Except.ok dd
  | Source.other => Except.error PlyError.typeError

/-- `matching_dimensions(other)`: resolve `other`, then build the dict.
The dict values compare `self.ply_data.elements[0][name].count` with the
same access on the other data; Python evaluates the self side of the first
comparison first, so execution can never get past the first `countAttr`.
The `and` short-circuit of the source is immaterial in everything after it
and is not modelled. -/
def PlyWrapper.matching_dimensions {α : Type} [Inhabited α] (w : PlyWrapper α)
    (fs : String → Option (PlyData α)) (b : Source α) :
    Except PlyError (List (String × Bool)) := do
  let od ← resolveOther fs b
  let se ← firstElem w.ply_data
  let sx ← fetch se keyX
  let sxc ← countAttr sx
  let oe ← firstElem od
  let ox ← fetch oe keyX
  let oxc ← countAttr ox
  let sy ← fetch se keyY
  let syc ← countAttr sy
  let oy ← fetch oe keyY
  let oyc ← countAttr oy
  let sz ← fetch se keyZ
  let szc ← countAttr sz
  let oz ← fetch oe keyZ
  let ozc ← countAttr oz
  let so ← fetch se keyOpacity
  let soc ← countAttr so
  let oo ← fetch oe keyOpacity
  let ooc ← countAttr oo
  let s0 ← fetch se keyDC0
  let s0c ← countAttr s0
  let o0 ← fetch oe keyDC0
  let o0c ← countAttr o0
  let s1 ← fetch se keyDC1
  let s1c ← countAttr s1
  let o1 ← fetch oe keyDC1
  let o1c ← countAttr o1
  let s2 ← fetch se keyDC2
  let s2c ← countAttr s2
  let o2 ← fetch oe keyDC2
  let o2c ← countAttr o2
  Except.ok
    [(attrXyz, decide (sxc = oxc) && decide (syc = oyc) && decide (szc = ozc)),
     (attrOpacities, decide (soc = ooc)),
     (attrDC, decide (s0c = o0c) && decide (s1c = o1c) && decide (s2c = o2c))]

/-- `np.concatenate([a, b], axis=1)` for the shapes that occur here:
defined exactly on pairs of 2-D arrays with equal leading dimension, and a
numpy error (ValueError) otherwise — in particular when one operand was
squeezed down to one dimension. -/
def concatAxis1 {α : Type} (a b : NDArray α) : Except PlyError (NDArray α) :=
  match a.shape, b.shape with
  | [n, k], [m, l] =>
    if n = m then
      Except.ok ⟨[n, k + l], (List.range n).flatMap (fun i => rowAt k a.data i ++ rowAt l b.data i)⟩
    else Except.error PlyError.valueError
  | _, _ => Except.error PlyError.valueError

/-- `tuple(coord)` for one row of the `n × 3` position array. -/
def tripleAt {α : Type} [Inhabited α] (r : List α) : α × α × α :=
  (r.getD 0 default, r.getD 1 default, r.getD 2 default)

/-- `[tuple(coord) for coord in self.xyz]`. -/
def tupleRows {α : Type} [Inhabited α] (a : NDArray α) : List (α × α × α) :=
  (getRows (a.shape.headD 0) (a.shape.getD 1 0) a.data).map tripleAt

/-- `get_sh_coeffs_standardized_format`: index tuples from `xyz`,
concatenation of `direct_current` and `higher_order_shs` along axis 1,
then the DataFrame rows (pandas raises when the index length does not
match the row count). -/
def PlyWrapper.get_sh_coeffs_standardized_format {α : Type} [Inhabited α] (w : PlyWrapper α) :
    Except PlyError (List ((α × α × α) × List α)) := do
  let tuples := tupleRows w.xyz
  let sh ← concatAxis1 w.direct_current w.higher_order_shs
  let shRows := getRows (sh.shape.headD 0) (sh.shape.getD 1 0) sh.data
  if tuples.length = shRows.length then Except.ok (tuples.zip shRows)
  else Except.error PlyError.valueError

/-- All columns of the element group have length `n` — true of every real
PLY element group, whose columns are the fields of one structured array
with `n` rows. -/
def HasCols {α : Type} (e : PlyElement α) (n : Nat) : Prop :=
  ∀ p ∈ e.properties, p.vals.length = n

/-- The seven required base properties are present. -/
def HasRequired {α : Type} (e : PlyElement α) : Prop :=
  ∀ r ∈ requiredBase, (e.get? r).isSome

/-- Every name of the three variable-length groups has an integer suffix. -/
def SuffixesParse {α : Type} (e : PlyElement α) : Prop :=
  ∀ pre ∈ [preFRest, preScale, preRot], ∀ nm ∈ groupNames pre e, (suffixInt? nm).isSome

instance {α : Type} (e : PlyElement α) (n : Nat) : Decidable (HasCols e n) := by
  unfold HasCols; infer_instance

instance {α : Type} (e : PlyElement α) : Decidable (HasRequired e) := by
  unfold HasRequired; infer_instance

instance {α : Type} (e : PlyElement α) : Decidable (SuffixesParse e) := by
  unfold SuffixesParse; infer_instance

/-! ### Basic lemmas about the embedding -/

lemma okBind {ε β γ : Type} (b : β) (f : β → Except ε γ) :
    (Except.ok b >>= f) = f b := rfl

lemma errBind {ε β γ : Type} (er : ε) (f : β → Except ε γ) :
    ((Except.error er : Except ε β) >>= f) = Except.error er := rfl

lemma bind_eq_ok_iff {ε β γ : Type} {x : Except ε β} {f : β → Except ε γ} {c : γ} :
    (x >>= f) = Except.ok c ↔ ∃ b, x = Except.ok b ∧ f b = Except.ok c := by
  cases x <;> simp [Bind.bind, Except.bind]

lemma resolveSource_plyData {α : Type} (fs : String → Option (PlyData α)) (d : PlyData α) :
    resolveSource fs (Source.plyData d) = Except.ok d := rfl

lemma resolveOther_plyData {α : Type} (fs : String → Option (PlyData α)) (d : PlyData α) :
    resolveOther fs (Source.plyData d) = Except.ok d := rfl

lemma fetch_inv {α : Type} {e : PlyElement α} {nm : String} {v : List α}
    (h : fetch e nm = Except.ok v) : e.get? nm = some v := by
  unfold fetch at h
  cases hg : e.get? nm <;> rw [hg] at h <;> simp_all

lemma requireLen_inv {α : Type} {n : Nat} {v c : List α}
    (h : requireLen n v = Except.ok c) : v.length = n ∧ c = v := by
  unfold requireLen at h
  split at h <;> simp_all

lemma requireLen_ok {α : Type} {n : Nat} {v : List α} (h : v.length = n) :
    requireLen n v = Except.ok v := by
  unfold requireLen
  rw [if_pos h]

lemma pySort_inv {names l : List String}
    (h : pySortBySuffix names = Except.ok l) :
    (∀ nm ∈ names, (suffixInt? nm).isSome) ∧ l = List.insertionSort suffLE names := by
  unfold pySortBySuffix at h
  split at h
  · next hc =>
    refine ⟨fun nm hm => ?_, by simp_all⟩
    exact List.all_eq_true.mp hc nm hm
  · simp_all

lemma pySort_ok {names : List String} (h : ∀ nm ∈ names, (suffixInt? nm).isSome) :
    pySortBySuffix names = Except.ok (List.insertionSort suffLE names) := by
  unfold pySortBySuffix
  rw [if_pos (List.all_eq_true.mpr h)]

lemma get?_length {α : Type} {e : PlyElement α} {n : Nat} {nm : String} {v : List α}
    (hc : HasCols e n) (h : e.get? nm = some v) : v.length = n := by
  unfold PlyElement.get? at h
  cases hf : e.properties.find? (fun p => p.name == nm) with
  | none => rw [hf] at h; exact absurd h (by simp)
  | some p =>
    rw [hf] at h
    have hpv : p.vals = v := by simpa using h
    rw [← hpv]
    exact hc p (List.mem_of_find?_eq_some hf)

lemma get?_isSome_of_mem {α : Type} {e : PlyElement α} {nm : String}
    (h : nm ∈ e.propNames) : (e.get? nm).isSome := by
  unfold PlyElement.propNames at h
  rcases List.mem_map.mp h with ⟨p, hp, hnm⟩
  have hfs : (e.properties.find? (fun p => p.name == nm)).isSome :=
    List.find?_isSome.mpr ⟨p, hp, by simp [hnm]⟩
  obtain ⟨q, hq⟩ := Option.isSome_iff_exists.mp hfs
  unfold PlyElement.get?
  rw [hq]
  rfl

lemma mem_groupNames_propNames {α : Type} {pre nm : String} {e : PlyElement α}
    (h : nm ∈ groupNames pre e) : nm ∈ e.propNames :=
  List.mem_of_mem_filter h

lemma mem_sortedGroup_iff {α : Type} {pre nm : String} {e : PlyElement α} :
    nm ∈ sortedGroup pre e ↔ nm ∈ groupNames pre e :=
  (List.perm_insertionSort suffLE (groupNames pre e)).mem_iff

/-- Columns of one sorted name group, as `capture_data` gathers them. -/
def sortedCols {α : Type} (pre : String) (e : PlyElement α) : List (List α) :=
  (sortedGroup pre e).map (fun nm => (e.get? nm).getD [])

lemma fetchCols_ok {α : Type} [Inhabited α] {e : PlyElement α} {n : Nat}
    {names : List String}
    (hsome : ∀ nm ∈ names, (e.get? nm).isSome)
    (hlen : ∀ nm ∈ names, ((e.get? nm).getD []).length = n) :
    fetchCols e n names = Except.ok (names.map (fun nm => (e.get? nm).getD [])) := by
  induction names with
  | nil => rfl
  | cons nm rest ih =>
    obtain ⟨v, hv⟩ := Option.isSome_iff_exists.mp (hsome nm (by simp))
    have hvl : v.length = n := by
      have := hlen nm (by simp)
      rw [hv] at this
      simpa using this
    simp only [fetchCols, fetch, hv, okBind, requireLen_ok hvl,
      ih (fun a ha => hsome a (by simp [ha])) (fun a ha => hlen a (by simp [ha])), okBind]
    simp [hv]

lemma fetchCols_len {α : Type} [Inhabited α] {e : PlyElement α} {n : Nat} :
    ∀ {names : List String} {cols : List (List α)},
      fetchCols e n names = Except.ok cols → cols.length = names.length := by
  intro names
  induction names with
  | nil => intro cols h; simp only [fetchCols] at h; cases h; rfl
  | cons nm rest ih =>
    intro cols h
    simp only [fetchCols] at h
    obtain ⟨c, hc, h⟩ := bind_eq_ok_iff.mp h
    obtain ⟨c2, hc2, h⟩ := bind_eq_ok_iff.mp h
    obtain ⟨cs, hcs, h⟩ := bind_eq_ok_iff.mp h
    cases h
    simp [ih hcs]

/-- Master success lemma: on a well-formed element group that has the seven
base properties and parseable group suffixes, `captureElem` succeeds with
the exact arrays the source builds. -/
lemma captureElem_eq_ok {α : Type} [Inhabited α] {e : PlyElement α} {n : Nat}
    {xs ys zs os d0 d1 d2 : List α}
    (hc : HasCols e n)
    (hx : e.get? keyX = some xs) (hy : e.get? keyY = some ys) (hz : e.get? keyZ = some zs)
    (ho : e.get? keyOpacity = some os)
    (h0 : e.get? keyDC0 = some d0) (h1 : e.get? keyDC1 = some d1) (h2 : e.get? keyDC2 = some d2)
    (hs : SuffixesParse e) :
    captureElem e = Except.ok
      { xyz := stackColsMat n [xs, ys, zs]
        opacities := ⟨[n, 1], os⟩
        direct_current := NDArray.squeeze ⟨[n, 3, 1], (stackColsMat n [d0, d1, d2]).data⟩
        higher_order_shs := stackColsMat n (sortedCols preFRest e)
        scaling := stackColsMat n (sortedCols preScale e)
        rotation := stackColsMat n (sortedCols preRot e) } := by
  have hxl : xs.length = n := get?_length hc hx
  have hyl : ys.length = n := get?_length hc hy
  have hzl : zs.length = n := get?_length hc hz
  have hol : os.length = n := get?_length hc ho
  have h0l : d0.length = n := get?_length hc h0
  have h1l : d1.length = n := get?_length hc h1
  have h2l : d2.length = n := get?_length hc h2
  have hps : ∀ pre ∈ [preFRest, preScale, preRot],
      pySortBySuffix (groupNames pre e) = Except.ok (sortedGroup pre e) :=
    fun pre hp => pySort_ok (hs pre hp)
  have hcols : ∀ pre ∈ [preFRest, preScale, preRot],
      fetchCols e n (sortedGroup pre e) = Except.ok (sortedCols pre e) := by
    intro pre hp
    exact fetchCols_ok
      (fun nm hm => get?_isSome_of_mem (mem_groupNames_propNames (mem_sortedGroup_iff.mp hm)))
      (fun nm hm => by
        obtain ⟨v, hv⟩ := Option.isSome_iff_exists.mp
          (get?_isSome_of_mem (mem_groupNames_propNames (mem_sortedGroup_iff.mp hm)))
        rw [hv]
        simpa using get?_length hc hv)
  simp only [captureElem, fetch, hx, hy, hz, ho, h0, h1, h2, okBind,
    requireLen_ok hyl, requireLen_ok hzl, requireLen_ok h0l, requireLen_ok h1l,
    requireLen_ok h2l,
    hps preFRest (by simp), hps preScale (by simp), hps preRot (by simp),
    hcols preFRest (by simp), hcols preScale (by simp), hcols preRot (by simp), hxl, hol]

/-- Inversion: when `captureElem` succeeds, the seven base properties were
present, every group suffix parsed, and the rotation array has one column
per property whose name starts with `rot`. -/
lemma captureElem_ok_inv {α : Type} [Inhabited α] {e : PlyElement α} {a : CapturedArrays α}
    (h : captureElem e = Except.ok a) :
    HasRequired e ∧ SuffixesParse e ∧
    (∃ xs, e.get? keyX = some xs ∧
      a.rotation.shape = [xs.length, (groupNames preRot e).length]) := by
  rw [captureElem] at h
  obtain ⟨xs, hxs, h⟩ := bind_eq_ok_iff.mp h
  try dsimp only at h
  obtain ⟨ys, hys, h⟩ := bind_eq_ok_iff.mp h
  try dsimp only at h
  obtain ⟨zs, hzs, h⟩ := bind_eq_ok_iff.mp h
  try dsimp only at h
  obtain ⟨ys2, hys2, h⟩ := bind_eq_ok_iff.mp h
  try dsimp only at h
  obtain ⟨zs2, hzs2, h⟩ := bind_eq_ok_iff.mp h
  try dsimp only at h
  obtain ⟨os, hos, h⟩ := bind_eq_ok_iff.mp h
  try dsimp only at h
  obtain ⟨d0, hd0, h⟩ := bind_eq_ok_iff.mp h
  try dsimp only at h
  obtain ⟨d02, hd02, h⟩ := bind_eq_ok_iff.mp h
  try dsimp only at h
  obtain ⟨d1, hd1, h⟩ := bind_eq_ok_iff.mp h
  try dsimp only at h
  obtain ⟨d12, hd12, h⟩ := bind_eq_ok_iff.mp h
  try dsimp only at h
  obtain ⟨d2, hd2, h⟩ := bind_eq_ok_iff.mp h
  try dsimp only at h
  obtain ⟨d22, hd22, h⟩ := bind_eq_ok_iff.mp h
  try dsimp only at h
  obtain ⟨fNames, hfN, h⟩ := bind_eq_ok_iff.mp h
  try dsimp only at h
  obtain ⟨fCols, hfC, h⟩ := bind_eq_ok_iff.mp h
  try dsimp only at h
  obtain ⟨sNames, hsN, h⟩ := bind_eq_ok_iff.mp h
  try dsimp only at h
  obtain ⟨sCols, hsC, h⟩ := bind_eq_ok_iff.mp h
  try dsimp only at h
  obtain ⟨rNames, hrN, h⟩ := bind_eq_ok_iff.mp h
  try dsimp only at h
  obtain ⟨rCols, hrC, h⟩ := bind_eq_ok_iff.mp h
  try dsimp only at h
  cases h
  refine ⟨?_, ?_, xs, fetch_inv hxs, ?_⟩
  · intro r hr
    simp only [requiredBase, List.mem_cons, List.not_mem_nil, or_false] at hr
    rcases hr with rfl | rfl | rfl | rfl | rfl | rfl | rfl
    · exact (fetch_inv hxs) ▸ rfl
    · exact (fetch_inv hys) ▸ rfl
    · exact (fetch_inv hzs) ▸ rfl
    · exact (fetch_inv hos) ▸ rfl
    · exact (fetch_inv hd0) ▸ rfl
    · exact (fetch_inv hd1) ▸ rfl
    · exact (fetch_inv hd2) ▸ rfl
  · intro pre hp
    simp only [List.mem_cons, List.not_mem_nil, or_false] at hp
    rcases hp with rfl | rfl | rfl
    · exact (pySort_inv hfN).1
    · exact (pySort_inv hsN).1
    · exact (pySort_inv hrN).1
  · have hlen : rCols.length = (groupNames preRot e).length := by
      rw [fetchCols_len hrC, (pySort_inv hrN).2]
      exact (List.perm_insertionSort suffLE (groupNames preRot e)).length_eq
    simp [stackColsMat, hlen]

/-- Inversion of `PlyWrapper.init`: the wrapper is the captured arrays of a
`PlyData` that the source resolved to. -/
lemma init_ok_inv {α : Type} [Inhabited α] {fs : String → Option (PlyData α)}
    {src : Source α} {w : PlyWrapper α}
    (h : PlyWrapper.init fs src = Except.ok w) :
    ∃ d a, capture_data d = Except.ok a ∧
      w = ⟨d, a.xyz, a.opacities, a.direct_current, a.higher_order_shs, a.scaling, a.rotation⟩ := by
  rw [PlyWrapper.init.eq_def] at h
  obtain ⟨d, hd, h⟩ := bind_eq_ok_iff.mp h
  try dsimp only at h
  obtain ⟨a, ha, h⟩ := bind_eq_ok_iff.mp h
  try dsimp only at h
  cases h
  exact ⟨d, a, ha, rfl⟩

lemma capture_data_ok_inv {α : Type} [Inhabited α] {d : PlyData α} {a : CapturedArrays α}
    (h : capture_data d = Except.ok a) :
    ∃ e rest, d.elements = e :: rest ∧ captureElem e = Except.ok a := by
  unfold capture_data at h
  cases hd : d.elements with
  | nil => rw [hd] at h; cases h
  | cons e rest => rw [hd] at h; exact ⟨e, rest, rfl, h⟩

/-! ### Declaration-order independence and suffix ordering -/

/-- Strict order on the parsed integer suffixes. -/
def suffLT (a b : String) : Prop :=
  suffixKey a < suffixKey b

instance : IsAntisymm String suffLT :=
  ⟨fun _ _ hab hba => absurd (lt_trans hab hba) (lt_irrefl _)⟩

/-- `find?` by name is invariant under permutation of a duplicate-free
property list. -/
lemma find?_name_eq_of_perm {α : Type} {l l2 : List (PlyProperty α)} (h : l.Perm l2) :
    ∀ (_ : (l.map PlyProperty.name).Nodup) (nm : String),
      l.find? (fun p => p.name == nm) = l2.find? (fun p => p.name == nm) := by
  induction h with
  | nil => intro _ _; rfl
  | cons x _ ih =>
    intro hnd nm
    rw [List.map_cons, List.nodup_cons] at hnd
    cases hx : (x.name == nm) with
    | true => simp only [List.find?_cons, hx]
    | false =>
      simp only [List.find?_cons, hx]
      exact ih hnd.2 nm
  | swap x y l =>
    intro hnd nm
    have hxy : y.name ≠ x.name := by
      simp only [List.map_cons, List.nodup_cons, List.mem_cons, List.mem_map] at hnd
      exact fun hcontra => hnd.1 (Or.inl hcontra)
    cases hy : (y.name == nm) with
    | true =>
      have hyn : y.name = nm := by simpa using hy
      have hx : (x.name == nm) = false := by
        simp only [beq_eq_false_iff_ne, ne_eq]
        exact fun hc => hxy (hyn.trans hc.symm)
      simp only [List.find?_cons, hy, hx]
    | false =>
      cases hx : (x.name == nm) with
      | true => simp only [List.find?_cons, hy, hx]
      | false => simp only [List.find?_cons, hy, hx]
  | trans h1 _ ih1 ih2 =>
    intro hnd nm
    have hnd2 := ((h1.map PlyProperty.name).nodup_iff).mp hnd
    exact (ih1 hnd nm).trans (ih2 hnd2 nm)

lemma get?_congr_of_perm {α : Type} {e e2 : PlyElement α}
    (h : e.properties.Perm e2.properties) (hnd : e.propNames.Nodup) (nm : String) :
    e.get? nm = e2.get? nm := by
  unfold PlyElement.get?
  rw [find?_name_eq_of_perm h hnd nm]

lemma groupNames_perm {α : Type} {e e2 : PlyElement α}
    (h : e.properties.Perm e2.properties) (pre : String) :
    (groupNames pre e).Perm (groupNames pre e2) :=
  (h.map PlyProperty.name).filter (fun nm => strStartsWith nm pre)

lemma all_eq_of_perm {l l2 : List String} (h : l.Perm l2) (f : String → Bool) :
    l.all f = l2.all f := by
  cases hb : l2.all f with
  | true =>
    rw [List.all_eq_true] at hb ⊢
    exact fun x hx => hb x (h.mem_iff.mp hx)
  | false =>
    cases hb2 : l.all f with
    | false => rfl
    | true =>
      rw [List.all_eq_true] at hb2
      have : l2.all f = true :=
        List.all_eq_true.mpr (fun x hx => hb2 x (h.mem_iff.mpr hx))
      rw [this] at hb
      cases hb

/-- With pairwise-distinct suffixes, any two permutations of a name list
have the same suffix-sorted order. -/
lemma insertionSort_eq_of_perm {l l2 : List String} (h : l.Perm l2)
    (hpd : l.Pairwise (fun a b => suffixKey a ≠ suffixKey b)) :
    List.insertionSort suffLE l = List.insertionSort suffLE l2 := by
  have hsymm : ∀ {x y : String}, suffixKey x ≠ suffixKey y → suffixKey y ≠ suffixKey x :=
    fun hne => hne.symm
  have hpd1 : (List.insertionSort suffLE l).Pairwise (fun a b => suffixKey a ≠ suffixKey b) :=
    ((List.perm_insertionSort suffLE l).pairwise_iff hsymm).mpr hpd
  have hpd2 : (List.insertionSort suffLE l2).Pairwise (fun a b => suffixKey a ≠ suffixKey b) :=
    ((List.perm_insertionSort suffLE l2).pairwise_iff hsymm).mpr
      ((h.pairwise_iff hsymm).mp hpd)
  have strict1 : List.Sorted suffLT (List.insertionSort suffLE l) :=
    ((List.sorted_insertionSort suffLE l).and hpd1).imp
      (fun hab => lt_of_le_of_ne hab.1 hab.2)
  have strict2 : List.Sorted suffLT (List.insertionSort suffLE l2) :=
    ((List.sorted_insertionSort suffLE l2).and hpd2).imp
      (fun hab => lt_of_le_of_ne hab.1 hab.2)
  have hperm : (List.insertionSort suffLE l).Perm (List.insertionSort suffLE l2) :=
    (List.perm_insertionSort suffLE l).trans (h.trans (List.perm_insertionSort suffLE l2).symm)
  exact List.eq_of_perm_of_sorted hperm strict1 strict2

lemma pySort_eq_of_perm {l l2 : List String} (h : l.Perm l2)
    (hpd : l.Pairwise (fun a b => suffixKey a ≠ suffixKey b)) :
    pySortBySuffix l = pySortBySuffix l2 := by
  unfold pySortBySuffix
  rw [all_eq_of_perm h]
  split_ifs
  · rw [insertionSort_eq_of_perm h hpd]
  · rfl

lemma fetch_congr {α : Type} {e e2 : PlyElement α}
    (hget : ∀ nm, e.get? nm = e2.get? nm) (nm : String) :
    fetch e nm = fetch e2 nm := by
  unfold fetch
  rw [hget]

lemma fetchCols_congr {α : Type} [Inhabited α] {e e2 : PlyElement α}
    (hget : ∀ nm, e.get? nm = e2.get? nm) (n : Nat) (names : List String) :
    fetchCols e n names = fetchCols e2 n names := by
  induction names with
  | nil => rfl
  | cons nm rest ih => simp only [fetchCols, fetch_congr hget, ih]

/-- `captureElem` is invariant under reordering the property declarations,
provided names are duplicate-free and the three suffix groups have
pairwise-distinct suffixes. -/
lemma captureElem_eq_of_perm {α : Type} [Inhabited α] {e e2 : PlyElement α}
    (h : e.properties.Perm e2.properties) (hnd : e.propNames.Nodup)
    (hf : (groupNames preFRest e).Pairwise (fun a b => suffixKey a ≠ suffixKey b))
    (hsc : (groupNames preScale e).Pairwise (fun a b => suffixKey a ≠ suffixKey b))
    (hr : (groupNames preRot e).Pairwise (fun a b => suffixKey a ≠ suffixKey b)) :
    captureElem e = captureElem e2 := by
  have hget : ∀ nm, e.get? nm = e2.get? nm := get?_congr_of_perm h hnd
  have hps1 : pySortBySuffix (groupNames preFRest e) = pySortBySuffix (groupNames preFRest e2) :=
    pySort_eq_of_perm (groupNames_perm h preFRest) hf
  have hps2 : pySortBySuffix (groupNames preScale e) = pySortBySuffix (groupNames preScale e2) :=
    pySort_eq_of_perm (groupNames_perm h preScale) hsc
  have hps3 : pySortBySuffix (groupNames preRot e) = pySortBySuffix (groupNames preRot e2) :=
    pySort_eq_of_perm (groupNames_perm h preRot) hr
  simp only [captureElem, fetch_congr hget, hps1, hps2, hps3, fetchCols_congr hget]

/-! ### Row extraction from row-major data -/

lemma rowAt_flatMap {α : Type} :
    ∀ (n : Nat) (f : Nat → List α) (k : Nat), (∀ i, i < n → (f i).length = k) →
      ∀ (i : Nat), i < n → rowAt k ((List.range n).flatMap f) i = f i := by
  intro n
  induction n with
  | zero => intro f k _ i hi; exact absurd hi (Nat.not_lt_zero i)
  | succ m ih =>
    intro f k hf i hi
    rw [List.range_succ_eq_map, List.flatMap_cons, List.flatMap_map]
    cases i with
    | zero =>
      unfold rowAt
      rw [Nat.zero_mul, List.drop_zero, ← hf 0 (Nat.succ_pos m), List.take_left]
    | succ j =>
      have hstep : rowAt k (f 0 ++ (List.range m).flatMap (fun a => f a.succ)) (j + 1) =
          rowAt k ((List.range m).flatMap (fun a => f a.succ)) j := by
        unfold rowAt
        have harith : (j + 1) * k = (f 0).length + j * k := by
          rw [hf 0 (Nat.succ_pos m)]
          ring
        rw [harith, List.drop_append]
      rw [hstep]
      exact ih (fun a => f a.succ) k (fun i2 hi2 => hf (i2 + 1) (Nat.succ_lt_succ hi2)) j
        (Nat.lt_of_succ_lt_succ hi)

lemma getRows_flatMap {α : Type} (n : Nat) (f : Nat → List α) (k : Nat)
    (hf : ∀ i, i < n → (f i).length = k) :
    getRows n k ((List.range n).flatMap f) = (List.range n).map f := by
  unfold getRows
  exact List.map_congr_left (fun i hi => rowAt_flatMap n f k hf i (List.mem_range.mp hi))

lemma flatMap_congr_range {α : Type} (n : Nat) (f g : Nat → List α)
    (h : ∀ i, i < n → f i = g i) :
    (List.range n).flatMap f = (List.range n).flatMap g := by
  rw [List.flatMap_def, List.flatMap_def,
    List.map_congr_left (fun i hi => h i (List.mem_range.mp hi))]

lemma stackColsMat_data_rows {α : Type} [Inhabited α] (n : Nat) (cols : List (List α)) :
    getRows n cols.length (stackColsMat n cols).data =
      (List.range n).map (fun i => cols.map (fun c => c.getD i default)) := by
  exact getRows_flatMap n _ cols.length (fun i _ => List.length_map cols _)

lemma sortedCols_length {α : Type} (pre : String) (e : PlyElement α) :
    (sortedCols pre e).length = (groupNames pre e).length := by
  unfold sortedCols
  rw [List.length_map, sortedGroup]
  exact (List.perm_insertionSort suffLE (groupNames pre e)).length_eq

lemma squeeze_shape_ne_one {α : Type} (n : Nat) (data : List α) (hn : n ≠ 1) :
    (NDArray.squeeze ⟨[n, 3, 1], data⟩).shape = [n, 3] := by
  simp [NDArray.squeeze, List.filter_cons, hn]

lemma squeeze_shape_one {α : Type} (data : List α) :
    (NDArray.squeeze ⟨[1, 3, 1], data⟩).shape = [3] := rfl

/-- Master success lemma at the `init` level, explicit arrays included. -/
lemma init_eq_ok {α : Type} [Inhabited α] {fs : String → Option (PlyData α)}
    {d : PlyData α} {e : PlyElement α} {rest : List (PlyElement α)} {n : Nat}
    {xs ys zs os d0 d1 d2 : List α}
    (hd : d.elements = e :: rest) (hc : HasCols e n)
    (hx : e.get? keyX = some xs) (hy : e.get? keyY = some ys) (hz : e.get? keyZ = some zs)
    (ho : e.get? keyOpacity = some os)
    (h0 : e.get? keyDC0 = some d0) (h1 : e.get? keyDC1 = some d1) (h2 : e.get? keyDC2 = some d2)
    (hs : SuffixesParse e) :
    PlyWrapper.init fs (Source.plyData d) = Except.ok
      ⟨d, stackColsMat n [xs, ys, zs], ⟨[n, 1], os⟩,
        NDArray.squeeze ⟨[n, 3, 1], (stackColsMat n [d0, d1, d2]).data⟩,
        stackColsMat n (sortedCols preFRest e), stackColsMat n (sortedCols preScale e),
        stackColsMat n (sortedCols preRot e)⟩ := by
  rw [PlyWrapper.init.eq_def]
  simp only [resolveSource_plyData, okBind, capture_data, hd,
    captureElem_eq_ok hc hx hy hz ho h0 h1 h2 hs]

def mkProp (nm : String) (vs : List Int) : PlyProperty Int := ⟨nm, vs⟩

/-- The element group of the two-point sample cloud; `rot_1` is declared
before `rot_0` to exercise the suffix sort. -/
def sampleElem : PlyElement Int :=
  ⟨[mkProp ("x") [1, 2], mkProp ("y") [3, 4], mkProp ("z") [5, 6],
    mkProp ("opacity") [7, 8], mkProp ("f_dc_0") [9, 10], mkProp ("f_dc_1") [11, 12],
    mkProp ("f_dc_2") [13, 14], mkProp ("f_rest_0") [15, 16], mkProp ("scale_0") [17, 18],
    mkProp ("rot_1") [19, 20], mkProp ("rot_0") [21, 22]]⟩

/-- A two-point sample cloud. -/
def samplePly : PlyData Int := ⟨[sampleElem]⟩

/-- The same cloud with a second, junk element group appended. -/
def sampleTwoGroups : PlyData Int :=
  ⟨[sampleElem, ⟨[mkProp ("junk") [99, 100, 101]]⟩]⟩

/-- The empty filesystem. -/
def fs0 : String → Option (PlyData Int) := fun _ => none

/-- The wrapper `decode(samplePly)` produces. -/
def sampleW : PlyWrapper Int :=
  ⟨samplePly, ⟨[2, 3], [1, 3, 5, 2, 4, 6]⟩, ⟨[2, 1], [7, 8]⟩,
   ⟨[2, 3], [9, 11, 13, 10, 12, 14]⟩, ⟨[2, 1], [15, 16]⟩, ⟨[2, 1], [17, 18]⟩,
   ⟨[2, 2], [21, 19, 22, 20]⟩⟩

lemma init_samplePly : PlyWrapper.init fs0 (Source.plyData samplePly) = Except.ok sampleW := by
  decide

/-- A valid single-point cloud. -/
def onePointPly : PlyData Int :=
  ⟨[⟨[mkProp ("x") [1], mkProp ("y") [3], mkProp ("z") [5],
      mkProp ("opacity") [7], mkProp ("f_dc_0") [9], mkProp ("f_dc_1") [11],
      mkProp ("f_dc_2") [13], mkProp ("f_rest_0") [15], mkProp ("scale_0") [17],
      mkProp ("rot_0") [21]]⟩]⟩

lemma init_plyData_ok_inv {α : Type} [Inhabited α] {fs : String → Option (PlyData α)}
    {d : PlyData α} {w : PlyWrapper α}
    (h : PlyWrapper.init fs (Source.plyData d) = Except.ok w) :
    ∃ a, capture_data d = Except.ok a ∧
      w = ⟨d, a.xyz, a.opacities, a.direct_current, a.higher_order_shs, a.scaling, a.rotation⟩ := by
  rw [PlyWrapper.init.eq_def, resolveSource_plyData, okBind] at h
  try dsimp only at h
  obtain ⟨a, ha, h⟩ := bind_eq_ok_iff.mp h
  try dsimp only at h
  cases h
  exact ⟨a, ha, rfl⟩

lemma countAttr_err {α : Type} (v : List α) :
    countAttr v = Except.error (PlyError.attributeError ndCount) := rfl

/-! ### The claims -/

/-- C1: `select(rs, [])` does return the six arrays — under the key
`higher_order` for the higher-order array — but the explicit six-name call
`select(rs, ["xyz","opacities","direct_current","higher_order","scaling",
"rotation"])` raises AttributeError at `higher_order`, because the stored
attribute is `higher_order_shs` (the assignment of `self.higher_order` is
commented out in the source) while the empty-list branch exposes the
array under the dict key `higher_order`.  So the claim fails on the code:
the two calls do not return the same arrays; the named call raises. -/
theorem C1_select_spec_names_raises {α : Type} [Inhabited α] (w : PlyWrapper α) :
    PlyWrapper.get_data w [] = Except.ok
      [(attrXyz, AttrValue.arr w.xyz), (attrOpacities, AttrValue.arr w.opacities),
       (attrDC, AttrValue.arr w.direct_current), (attrHigherOrder, AttrValue.arr w.higher_order_shs),
       (attrScaling, AttrValue.arr w.scaling), (attrRotation, AttrValue.arr w.rotation)]
    ∧ PlyWrapper.get_data w
        [attrXyz, attrOpacities, attrDC, attrHigherOrder, attrScaling, attrRotation]
      = Except.error (PlyError.attributeError attrHigherOrder) :=
  ⟨rfl, rfl⟩

/-- C4 (amended): a value that is neither a path nor a point-cloud
structure is rejected by both operations, but not with the same error:
`decode` raises ValueError while `compare_dimensions` raises TypeError. -/
theorem C4_wrong_type_distinct_errors {α : Type} [Inhabited α]
    (fs fs2 : String → Option (PlyData α)) (w : PlyWrapper α) :
    PlyWrapper.init fs Source.other = Except.error PlyError.valueError
    ∧ PlyWrapper.matching_dimensions w fs2 Source.other = Except.error PlyError.typeError :=
  ⟨rfl, rfl⟩

/-- C4 counterexample: at a concrete wrong-typed argument the two
operations raise different errors, refuting the claim that they raise the
same error of the taxonomy. -/
theorem C4_counterexample :
    PlyWrapper.init fs0 Source.other = Except.error PlyError.valueError
    ∧ PlyWrapper.matching_dimensions sampleW fs0 Source.other = Except.error PlyError.typeError
    ∧ PlyError.valueError ≠ PlyError.typeError :=
  ⟨rfl, rfl, by decide⟩

/-- C7: `compare_dimensions` never returns the all-true mapping: on any
decoded wrapper and any in-memory other source it raises AttributeError,
because `elements[0]["x"]` is a numpy array and numpy arrays have no
`count` attribute. -/
theorem C7_compare_dimensions_raises {α : Type} [Inhabited α]
    (fs fs2 : String → Option (PlyData α)) (src : Source α) (w : PlyWrapper α) (b : PlyData α)
    (h : PlyWrapper.init fs src = Except.ok w) :
    PlyWrapper.matching_dimensions w fs2 (Source.plyData b)
      = Except.error (PlyError.attributeError ndCount) := by
  obtain ⟨d, a, hcap, hw⟩ := init_ok_inv h
  obtain ⟨e, rest, hd, hcapE⟩ := capture_data_ok_inv hcap
  obtain ⟨-, -, xs, hxs, -⟩ := captureElem_ok_inv hcapE
  subst hw
  rw [PlyWrapper.matching_dimensions.eq_def]
  simp only [resolveOther_plyData, okBind, firstElem, hd, fetch, hxs,
    countAttr_err, errBind]

/-- C7 witness: comparing the decoded two-point sample against its own
source raises AttributeError on `count`. -/
theorem C7_witness :
    PlyWrapper.matching_dimensions sampleW fs0 (Source.plyData samplePly)
      = Except.error (PlyError.attributeError ndCount) :=
  C7_compare_dimensions_raises fs0 fs0 (Source.plyData samplePly) sampleW samplePly
    init_samplePly

def missingPath : String := "/nonexistent/path.ply"

/-- A one-point cloud whose element group lacks `opacity`. -/
def noOpacityPly : PlyData Int :=
  ⟨[⟨[mkProp ("x") [1], mkProp ("y") [3], mkProp ("z") [5],
      mkProp ("f_dc_0") [9], mkProp ("f_dc_1") [11], mkProp ("f_dc_2") [13]]⟩]⟩

/-- C5: decoding a nonexistent path raises FileNotFoundError (the spec
NotFoundError); a missing required base property makes decoding raise — in
particular a file missing `opacity` raises KeyError naming `opacity` (the
error a numpy structured array raises for an absent field, the spec
InvalidFormatError). -/
theorem C5_not_found_and_invalid_format {α : Type} [Inhabited α] :
    (∀ (fs : String → Option (PlyData α)) (p : String), fs p = none →
      PlyWrapper.init fs (Source.path p) = Except.error (PlyError.fileNotFoundError p))
    ∧ (∀ (fs : String → Option (PlyData α)) (d : PlyData α) (e : PlyElement α)
        (rest : List (PlyElement α)), d.elements = e :: rest →
        (∃ r ∈ requiredBase, e.get? r = none) →
        (PlyWrapper.init fs (Source.plyData d)).isOk = false)
    ∧ (∀ (fs : String → Option (PlyData α)) (d : PlyData α) (e : PlyElement α)
        (rest : List (PlyElement α)) (xs ys zs : List α), d.elements = e :: rest →
        e.get? keyX = some xs → e.get? keyY = some ys → e.get? keyZ = some zs →
        ys.length = xs.length → zs.length = xs.length →
        e.get? keyOpacity = none →
        PlyWrapper.init fs (Source.plyData d) = Except.error (PlyError.keyError keyOpacity)) := by
  refine ⟨?_, ?_, ?_⟩
  · intro fs p h
    rw [PlyWrapper.init.eq_def]
    simp only [resolveSource, h, errBind]
  · intro fs d e rest hd hmiss
    cases hres : PlyWrapper.init fs (Source.plyData d) with
    | error er => rfl
    | ok w =>
      exfalso
      obtain ⟨a, hcap, hw⟩ := init_plyData_ok_inv hres
      obtain ⟨e2, rest2, hd2, hcapE⟩ := capture_data_ok_inv hcap
      rw [hd] at hd2
      cases hd2
      obtain ⟨hreq, -, -⟩ := captureElem_ok_inv hcapE
      obtain ⟨r, hr, hnone⟩ := hmiss
      have := hreq r hr
      rw [hnone] at this
      cases this
  · intro fs d e rest xs ys zs hd hx hy hz hyl hzl ho
    rw [PlyWrapper.init.eq_def]
    simp only [resolveSource_plyData, okBind, capture_data, hd, captureElem, fetch,
      hx, hy, hz, ho, okBind, requireLen_ok hyl, requireLen_ok hzl, errBind]

/-- C5 witness: the nonexistent path of the spec example, and a concrete
file missing `opacity`. -/
theorem C5_witness :
    PlyWrapper.init fs0 (Source.path missingPath)
      = Except.error (PlyError.fileNotFoundError missingPath)
    ∧ PlyWrapper.init fs0 (Source.plyData noOpacityPly)
      = Except.error (PlyError.keyError keyOpacity) :=
  ⟨(C5_not_found_and_invalid_format).1 fs0 missingPath rfl,
   (C5_not_found_and_invalid_format).2.2 fs0 noOpacityPly _ [] [1] [3] [5] rfl
     (by decide) (by decide) (by decide) (by decide) (by decide) (by decide)⟩

/-- C10: the rotation group is collected from every property whose name
merely starts with `rot` (when decoding succeeds, the rotation array has
exactly one column per such property); and whenever any collected name in
the `f_rest_`, `scale_` or `rot` groups has a suffix that is not a base-10
integer, decoding raises instead of returning a record set. -/
theorem C10_rot_collection_and_parse {α : Type} [Inhabited α]
    (fs : String → Option (PlyData α)) (d : PlyData α) (e : PlyElement α)
    (rest : List (PlyElement α)) (hd : d.elements = e :: rest) :
    (∀ w, PlyWrapper.init fs (Source.plyData d) = Except.ok w →
      w.rotation.shape.getD 1 0 = (groupNames preRot e).length)
    ∧ ((∃ nm, (nm ∈ groupNames preFRest e ∨ nm ∈ groupNames preScale e ∨ nm ∈ groupNames preRot e)
          ∧ suffixInt? nm = none) →
        (PlyWrapper.init fs (Source.plyData d)).isOk = false) := by
  constructor
  · intro w hw
    obtain ⟨a, hcap, hweq⟩ := init_plyData_ok_inv hw
    obtain ⟨e2, rest2, hd2, hcapE⟩ := capture_data_ok_inv hcap
    rw [hd] at hd2
    cases hd2
    obtain ⟨-, -, xs, -, hshape⟩ := captureElem_ok_inv hcapE
    rw [hweq]
    simp [hshape]
  · intro hbad
    cases hres : PlyWrapper.init fs (Source.plyData d) with
    | error er => rfl
    | ok w =>
      exfalso
      obtain ⟨a, hcap, hweq⟩ := init_plyData_ok_inv hres
      obtain ⟨e2, rest2, hd2, hcapE⟩ := capture_data_ok_inv hcap
      rw [hd] at hd2
      cases hd2
      obtain ⟨-, hs, -⟩ := captureElem_ok_inv hcapE
      obtain ⟨nm, hmem, hnone⟩ := hbad
      rcases hmem with hm | hm | hm
      · have := hs preFRest (by simp) nm hm
        rw [hnone] at this
        cases this
      · have := hs preScale (by simp) nm hm
        rw [hnone] at this
        cases this
      · have := hs preRot (by simp) nm hm
        rw [hnone] at this
        cases this

/-- A cloud with a property `rotation`: collected by the `rot` filter, and
its suffix does not parse as an integer. -/
def badRotPly : PlyData Int :=
  ⟨[⟨[mkProp ("x") [1], mkProp ("y") [3], mkProp ("z") [5],
      mkProp ("opacity") [7], mkProp ("f_dc_0") [9], mkProp ("f_dc_1") [11],
      mkProp ("f_dc_2") [13], mkProp ("rot_0") [21], mkProp ("rotation") [23]]⟩]⟩

/-- C10 witness: the property `rotation` starts with `rot`, its suffix
fails to parse, and decoding the cloud fails. -/
theorem C10_witness :
    (PlyWrapper.init fs0 (Source.plyData badRotPly)).isOk = false :=
  (C10_rot_collection_and_parse fs0 badRotPly _ [] rfl).2
    ⟨"rotation", Or.inr (Or.inr (by decide)), by decide⟩

lemma firstElem_congr {α : Type} {d d2 : PlyData α}
    (h : d.elements.head? = d2.elements.head?) : firstElem d = firstElem d2 := by
  unfold firstElem
  cases hde : d.elements with
  | nil =>
    cases hde2 : d2.elements with
    | nil => rfl
    | cons e2 r2 => rw [hde, hde2] at h; cases h
  | cons e r =>
    cases hde2 : d2.elements with
    | nil => rw [hde, hde2] at h; cases h
    | cons e2 r2 =>
      rw [hde, hde2] at h
      simp only [List.head?_cons, Option.some_inj] at h
      rw [h]

lemma capture_data_congr {α : Type} [Inhabited α] {d d2 : PlyData α}
    (h : d.elements.head? = d2.elements.head?) : capture_data d = capture_data d2 := by
  unfold capture_data
  cases hde : d.elements with
  | nil =>
    cases hde2 : d2.elements with
    | nil => rfl
    | cons e2 r2 => rw [hde, hde2] at h; cases h
  | cons e r =>
    cases hde2 : d2.elements with
    | nil => rw [hde, hde2] at h; cases h
    | cons e2 r2 =>
      rw [hde, hde2] at h
      simp only [List.head?_cons, Option.some_inj] at h
      rw [h]

lemma mapOk {ε β γ : Type} (v : β) (f : β → γ) :
    (Except.ok v : Except ε β).map f = Except.ok (f v) := rfl

lemma mapErr {ε β γ : Type} (er : ε) (f : β → γ) :
    (Except.error er : Except ε β).map f = Except.error er := rfl

lemma init_plyData_as_map {α : Type} [Inhabited α] (fs : String → Option (PlyData α))
    (dd : PlyData α) :
    PlyWrapper.init fs (Source.plyData dd) = (capture_data dd).map
      (fun a => (⟨dd, a.xyz, a.opacities, a.direct_current,
        a.higher_order_shs, a.scaling, a.rotation⟩ : PlyWrapper α)) := by
  rw [PlyWrapper.init.eq_def, resolveSource_plyData, okBind]
  cases capture_data dd <;> rfl

/-- The six decoded arrays of a wrapper. -/
def arraysOf {α : Type} (w : PlyWrapper α) :
    NDArray α × NDArray α × NDArray α × NDArray α × NDArray α × NDArray α :=
  (w.xyz, w.opacities, w.direct_current, w.higher_order_shs, w.scaling, w.rotation)

/-- C9: decoding reads only the first element group — two inputs with the
same first group decode to the same six arrays (or the same error), give
the same table, and `matching_dimensions` behaves the same, also when the
two other-sources agree only on their first group. -/
theorem C9_only_first_element_group {α : Type} [Inhabited α]
    (fs : String → Option (PlyData α)) (d d2 b b2 : PlyData α)
    (hd : d.elements.head? = d2.elements.head?)
    (hb : b.elements.head? = b2.elements.head?) :
    ((PlyWrapper.init fs (Source.plyData d)).map arraysOf
      = (PlyWrapper.init fs (Source.plyData d2)).map arraysOf)
    ∧ ((PlyWrapper.init fs (Source.plyData d)).map
          PlyWrapper.get_sh_coeffs_standardized_format
      = (PlyWrapper.init fs (Source.plyData d2)).map
          PlyWrapper.get_sh_coeffs_standardized_format)
    ∧ ((PlyWrapper.init fs (Source.plyData d)).map
          (fun w => PlyWrapper.matching_dimensions w fs (Source.plyData b))
      = (PlyWrapper.init fs (Source.plyData d2)).map
          (fun w => PlyWrapper.matching_dimensions w fs (Source.plyData b2))) := by
  have hcap : capture_data (α := α) d = capture_data d2 := capture_data_congr hd
  rw [init_plyData_as_map, init_plyData_as_map, ← hcap]
  cases hcd : capture_data (α := α) d with
  | error er => refine ⟨rfl, rfl, rfl⟩
  | ok a =>
    refine ⟨rfl, rfl, ?_⟩
    simp only [mapOk]
    simp only [PlyWrapper.matching_dimensions.eq_def, resolveOther_plyData, okBind,
      firstElem_congr hd, firstElem_congr hb]

/-- C9 witness: appending a junk second element group to the sample cloud
changes none of the three observations. -/
theorem C9_witness :
    ((PlyWrapper.init fs0 (Source.plyData sampleTwoGroups)).map arraysOf
      = (PlyWrapper.init fs0 (Source.plyData samplePly)).map arraysOf)
    ∧ ((PlyWrapper.init fs0 (Source.plyData sampleTwoGroups)).map
          PlyWrapper.get_sh_coeffs_standardized_format
      = (PlyWrapper.init fs0 (Source.plyData samplePly)).map
          PlyWrapper.get_sh_coeffs_standardized_format)
    ∧ ((PlyWrapper.init fs0 (Source.plyData sampleTwoGroups)).map
          (fun w => PlyWrapper.matching_dimensions w fs0 (Source.plyData sampleTwoGroups))
      = (PlyWrapper.init fs0 (Source.plyData samplePly)).map
          (fun w => PlyWrapper.matching_dimensions w fs0 (Source.plyData samplePly))) :=
  C9_only_first_element_group fs0 sampleTwoGroups samplePly sampleTwoGroups samplePly
    (by decide) (by decide)

lemma selectLoop_ok {α : Type} (w : PlyWrapper α) :
    ∀ (attrs : List String), (∀ a ∈ attrs, (w.getattr a).isSome) →
      selectLoop w attrs = Except.ok
        (attrs.map (fun a => (a, (w.getattr a).getD (AttrValue.method a)))) := by
  intro attrs
  induction attrs with
  | nil => intro _; rfl
  | cons a rest ih =>
    intro h
    obtain ⟨v, hv⟩ := Option.isSome_iff_exists.mp (h a (by simp))
    simp only [selectLoop, hv, ih (fun x hx => h x (by simp [hx])), Except.map,
      List.map_cons, Option.getD_some]

lemma selectLoop_err {α : Type} (w : PlyWrapper α) :
    ∀ (attrs : List String) (bb : String),
      attrs.find? (fun a => (w.getattr a).isNone) = some bb →
      selectLoop w attrs = Except.error (PlyError.attributeError bb) := by
  intro attrs
  induction attrs with
  | nil => intro bb h; cases h
  | cons a rest ih =>
    intro bb h
    cases hv : w.getattr a with
    | none =>
      have : a = bb := by
        simp only [List.find?_cons, hv, Option.isNone_none] at h
        simpa using h
      subst this
      simp [selectLoop, hv]
    | some v =>
      have hrest : rest.find? (fun x => (w.getattr x).isNone) = some bb := by
        simpa only [List.find?_cons, hv, Option.isNone_some] using h
      simp only [selectLoop, hv, ih bb hrest, Except.map]

/-- C3 (amended): a non-empty `select` is `getattr`-reflection, not a check
against the six known fields — it returns one entry per requested name
whenever every name is an attribute of the wrapper object (this includes
internal ones such as `ply_data`, `higher_order_shs` and the method
names), and raises AttributeError naming the first requested name that is
not an attribute.  The spec field name `higher_order` is not an attribute
and is rejected; internal names are accepted. -/
theorem C3_reflection_select {α : Type} (w : PlyWrapper α) (attrs : List String)
    (hne : attrs ≠ []) :
    ((∀ a ∈ attrs, (w.getattr a).isSome) →
      PlyWrapper.get_data w attrs = Except.ok
        (attrs.map (fun a => (a, (w.getattr a).getD (AttrValue.method a)))))
    ∧ (∀ bb, attrs.find? (fun a => (w.getattr a).isNone) = some bb →
      PlyWrapper.get_data w attrs = Except.error (PlyError.attributeError bb)) := by
  have hemp : attrs.isEmpty = false := by
    cases attrs with
    | nil => exact absurd rfl hne
    | cons a rest => rfl
  constructor
  · intro h
    rw [PlyWrapper.get_data, hemp]
    simp only [Bool.false_eq_true, if_false]
    exact selectLoop_ok w attrs h
  · intro bb hf
    rw [PlyWrapper.get_data, hemp]
    simp only [Bool.false_eq_true, if_false]
    exact selectLoop_err w attrs bb hf

/-- C3 counterexample: on the decoded two-point sample, requesting the
internal attribute `ply_data` — a name outside the six known fields —
succeeds instead of raising, refuting the claim that exactly the six
field names are accepted. -/
theorem C3_counterexample :
    PlyWrapper.init fs0 (Source.plyData samplePly) = Except.ok sampleW
    ∧ PlyWrapper.get_data sampleW ["ply_data"]
        = Except.ok [("ply_data", AttrValue.ply samplePly)]
    ∧ "ply_data" ∉ [attrXyz, attrOpacities, attrDC, attrHigherOrder, attrScaling, attrRotation] :=
  ⟨init_samplePly, by decide, by decide⟩

/-- C3 witness: an unknown name raises AttributeError naming it, and a
request for attribute names returns exactly the requested entries. -/
theorem C3_witness :
    PlyWrapper.get_data sampleW ["xyz", "bogus"]
      = Except.error (PlyError.attributeError ("bogus"))
    ∧ PlyWrapper.get_data sampleW ["scaling", "higher_order_shs"]
      = Except.ok [("scaling", AttrValue.arr sampleW.scaling),
          ("higher_order_shs", AttrValue.arr sampleW.higher_order_shs)] :=
  ⟨(C3_reflection_select sampleW _ (by decide)).2 ("bogus") (by decide),
   ((C3_reflection_select sampleW ["scaling", "higher_order_shs"] (by decide)).1
      (by decide)).trans (by decide)⟩

/-- C2 (amended): on a valid input with `n` rows, decoding succeeds and
every returned array except `direct_current` has leading dimension `n`;
`direct_current` has leading dimension `n` whenever `n ≠ 1`, but for
`n = 1` the unconditional squeeze collapses it from `1 × 3 × 1` to shape
`(3,)`, losing the point dimension. -/
theorem C2_leading_dimensions {α : Type} [Inhabited α]
    (fs : String → Option (PlyData α)) (d : PlyData α) (e : PlyElement α)
    (rest : List (PlyElement α)) (n : Nat)
    (hd : d.elements = e :: rest) (hc : HasCols e n) (hreq : HasRequired e)
    (hs : SuffixesParse e) :
    ∃ w, PlyWrapper.init fs (Source.plyData d) = Except.ok w
      ∧ w.xyz.shape = [n, 3]
      ∧ w.opacities.shape = [n, 1]
      ∧ w.higher_order_shs.shape = [n, (groupNames preFRest e).length]
      ∧ w.scaling.shape = [n, (groupNames preScale e).length]
      ∧ w.rotation.shape = [n, (groupNames preRot e).length]
      ∧ (n ≠ 1 → w.direct_current.shape = [n, 3])
      ∧ (n = 1 → w.direct_current.shape = [3]) := by
  obtain ⟨xs, hx⟩ := Option.isSome_iff_exists.mp (hreq keyX (by simp [requiredBase]))
  obtain ⟨ys, hy⟩ := Option.isSome_iff_exists.mp (hreq keyY (by simp [requiredBase]))
  obtain ⟨zs, hz⟩ := Option.isSome_iff_exists.mp (hreq keyZ (by simp [requiredBase]))
  obtain ⟨os, ho⟩ := Option.isSome_iff_exists.mp (hreq keyOpacity (by simp [requiredBase]))
  obtain ⟨d0, h0⟩ := Option.isSome_iff_exists.mp (hreq keyDC0 (by simp [requiredBase]))
  obtain ⟨d1, h1⟩ := Option.isSome_iff_exists.mp (hreq keyDC1 (by simp [requiredBase]))
  obtain ⟨d2, h2⟩ := Option.isSome_iff_exists.mp (hreq keyDC2 (by simp [requiredBase]))
  refine ⟨_, init_eq_ok hd hc hx hy hz ho h0 h1 h2 hs, ?_, rfl, ?_, ?_, ?_, ?_, ?_⟩
  · rfl
  · simp [stackColsMat, sortedCols_length]
  · simp [stackColsMat, sortedCols_length]
  · simp [stackColsMat, sortedCols_length]
  · intro hn
    exact squeeze_shape_ne_one n _ hn
  · intro hn
    subst hn
    exact squeeze_shape_one _

/-- C2 counterexample: the valid one-point cloud decodes, but its
`direct_current` array has shape `(3,)` — leading dimension 3, not the
point count 1 — refuting the claim for N = 1. -/
theorem C2_counterexample :
    (PlyWrapper.init fs0 (Source.plyData onePointPly)).map
      (fun w => w.direct_current.shape) = Except.ok [3] := by
  decide

/-- C2 witness: the two-point sample satisfies the amended claim with
n = 2. -/
theorem C2_witness :
    ∃ w, PlyWrapper.init fs0 (Source.plyData samplePly) = Except.ok w
      ∧ w.xyz.shape = [2, 3]
      ∧ w.opacities.shape = [2, 1]
      ∧ w.higher_order_shs.shape = [2, (groupNames preFRest sampleElem).length]
      ∧ w.scaling.shape = [2, (groupNames preScale sampleElem).length]
      ∧ w.rotation.shape = [2, (groupNames preRot sampleElem).length]
      ∧ (2 ≠ 1 → w.direct_current.shape = [2, 3])
      ∧ (2 = 1 → w.direct_current.shape = [3]) :=
  C2_leading_dimensions fs0 samplePly sampleElem [] 2 rfl (by decide) (by decide) (by decide)

lemma sortedGroup_sorted {α : Type} (pre : String) (e : PlyElement α)
    (hpd : (groupNames pre e).Pairwise (fun a b => suffixKey a ≠ suffixKey b)) :
    List.Sorted suffLT (sortedGroup pre e) := by
  have hpd1 : (sortedGroup pre e).Pairwise (fun a b => suffixKey a ≠ suffixKey b) :=
    ((List.perm_insertionSort suffLE (groupNames pre e)).pairwise_iff
      (fun h => h.symm)).mpr hpd
  exact ((List.sorted_insertionSort suffLE (groupNames pre e)).and hpd1).imp
    (fun hab => lt_of_le_of_ne hab.1 hab.2)

/-- C6: the three variable-length groups are ordered by ascending integer
suffix, independently of declaration order — for duplicate-free property
names with pairwise-distinct suffixes in each group, any reordering of the
declarations decodes to the identical result, the chosen column order is a
permutation of the matching names, and it is strictly sorted by the parsed
suffix. -/
theorem C6_columns_by_suffix {α : Type} [Inhabited α]
    (d d2 : PlyData α) (e e2 : PlyElement α) (re re2 : List (PlyElement α))
    (hd : d.elements = e :: re) (hd2 : d2.elements = e2 :: re2)
    (hperm : e.properties.Perm e2.properties)
    (hnd : e.propNames.Nodup)
    (hf : (groupNames preFRest e).Pairwise (fun a b => suffixKey a ≠ suffixKey b))
    (hsc : (groupNames preScale e).Pairwise (fun a b => suffixKey a ≠ suffixKey b))
    (hr : (groupNames preRot e).Pairwise (fun a b => suffixKey a ≠ suffixKey b)) :
    capture_data d = capture_data d2
    ∧ (sortedGroup preFRest e).Perm (groupNames preFRest e)
    ∧ (sortedGroup preScale e).Perm (groupNames preScale e)
    ∧ (sortedGroup preRot e).Perm (groupNames preRot e)
    ∧ List.Sorted suffLT (sortedGroup preFRest e)
    ∧ List.Sorted suffLT (sortedGroup preScale e)
    ∧ List.Sorted suffLT (sortedGroup preRot e) := by
  refine ⟨?_, List.perm_insertionSort suffLE (groupNames preFRest e),
    List.perm_insertionSort suffLE (groupNames preScale e),
    List.perm_insertionSort suffLE (groupNames preRot e),
    sortedGroup_sorted preFRest e hf, sortedGroup_sorted preScale e hsc,
    sortedGroup_sorted preRot e hr⟩
  unfold capture_data
  rw [hd, hd2]
  exact captureElem_eq_of_perm hperm hnd hf hsc hr

/-- The spec example, declared as `scale_2, scale_0, scale_1`. -/
def scrambledElem : PlyElement Int :=
  ⟨[mkProp ("x") [1, 2], mkProp ("y") [3, 4], mkProp ("z") [5, 6],
    mkProp ("opacity") [7, 8], mkProp ("f_dc_0") [9, 10], mkProp ("f_dc_1") [11, 12],
    mkProp ("f_dc_2") [13, 14], mkProp ("scale_2") [31, 32], mkProp ("scale_0") [33, 34],
    mkProp ("scale_1") [35, 36]]⟩

/-- The same properties declared in suffix order. -/
def orderedElem : PlyElement Int :=
  ⟨[mkProp ("scale_0") [33, 34], mkProp ("scale_1") [35, 36], mkProp ("scale_2") [31, 32],
    mkProp ("x") [1, 2], mkProp ("y") [3, 4], mkProp ("z") [5, 6],
    mkProp ("opacity") [7, 8], mkProp ("f_dc_0") [9, 10], mkProp ("f_dc_1") [11, 12],
    mkProp ("f_dc_2") [13, 14]]⟩

/-- C6 witness: declaring `scale_2, scale_0, scale_1` decodes identically
to the suffix-ordered declaration, and the chosen column order is
`scale_0, scale_1, scale_2`. -/
theorem C6_witness :
    capture_data (⟨[scrambledElem]⟩ : PlyData Int)
      = capture_data (⟨[orderedElem]⟩ : PlyData Int)
    ∧ List.Sorted suffLT (sortedGroup preScale scrambledElem)
    ∧ sortedGroup preScale scrambledElem = ["scale_0", "scale_1", "scale_2"] := by
  have h := C6_columns_by_suffix (⟨[scrambledElem]⟩ : PlyData Int) ⟨[orderedElem]⟩
    scrambledElem orderedElem [] [] rfl rfl (by decide) (by decide) (by decide)
    (by decide) (by decide)
  exact ⟨h.1, h.2.2.2.2.2.1, by decide⟩

lemma concatAxis1_stack {α : Type} [Inhabited α] (n k : Nat) (da : List α)
    (cols : List (List α)) :
    concatAxis1 ⟨[n, k], da⟩ (stackColsMat n cols)
      = Except.ok ⟨[n, k + cols.length],
          (List.range n).flatMap
            (fun i => rowAt k da i ++ rowAt cols.length (stackColsMat n cols).data i)⟩ := by
  unfold concatAxis1 stackColsMat
  simp

lemma tupleRows_stack3 {α : Type} [Inhabited α] (n : Nat) (xs ys zs : List α) :
    tupleRows (stackColsMat n [xs, ys, zs])
      = (List.range n).map
          (fun i => (xs.getD i default, ys.getD i default, zs.getD i default)) := by
  have h1 : tupleRows (stackColsMat n [xs, ys, zs])
      = (getRows n ([xs, ys, zs] : List (List α)).length
          (stackColsMat n [xs, ys, zs]).data).map tripleAt := rfl
  rw [h1, stackColsMat_data_rows, List.map_map]
  exact List.map_congr_left (fun i _ => rfl)

/-- C8 (amended): for a valid input with n rows, n ≠ 1, the table has
exactly one row per point — row i keyed by the triple (x i, y i, z i),
with the three base-color columns followed by the suffix-sorted
higher-order columns; coincident points are not deduplicated, since the
rows are produced by position, not by key.  (For n = 1 the squeeze of
`direct_current` makes the concatenation raise; see the counterexample.) -/
theorem C8_table_rows {α : Type} [Inhabited α]
    (fs : String → Option (PlyData α)) (d : PlyData α) (e : PlyElement α)
    (rest : List (PlyElement α)) (n : Nat) (xs ys zs os d0 d1 d2 : List α)
    (hd : d.elements = e :: rest) (hc : HasCols e n)
    (hx : e.get? keyX = some xs) (hy : e.get? keyY = some ys) (hz : e.get? keyZ = some zs)
    (ho : e.get? keyOpacity = some os)
    (h0 : e.get? keyDC0 = some d0) (h1 : e.get? keyDC1 = some d1) (h2 : e.get? keyDC2 = some d2)
    (hs : SuffixesParse e) (hn : n ≠ 1) :
    ∃ w, PlyWrapper.init fs (Source.plyData d) = Except.ok w ∧
      PlyWrapper.get_sh_coeffs_standardized_format w = Except.ok
        ((List.range n).map (fun i =>
          ((xs.getD i default, ys.getD i default, zs.getD i default),
           [d0.getD i default, d1.getD i default, d2.getD i default]
             ++ (sortedGroup preFRest e).map
                  (fun nm => ((e.get? nm).getD []).getD i default)))) := by
  refine ⟨_, init_eq_ok hd hc hx hy hz ho h0 h1 h2 hs, ?_⟩
  have hdc : NDArray.squeeze ⟨[n, 3, 1], (stackColsMat n [d0, d1, d2]).data⟩
      = (⟨[n, 3], (stackColsMat n [d0, d1, d2]).data⟩ : NDArray α) := by
    unfold NDArray.squeeze
    simp [List.filter_cons, hn]
  rw [PlyWrapper.get_sh_coeffs_standardized_format.eq_def]
  dsimp only
  rw [hdc, concatAxis1_stack, okBind]
  dsimp only
  have hrow1 : ∀ i, i < n → rowAt 3 (stackColsMat n [d0, d1, d2]).data i
      = [d0.getD i default, d1.getD i default, d2.getD i default] := by
    intro i hi
    exact rowAt_flatMap n
      (fun j => ([d0, d1, d2] : List (List α)).map (fun c => c.getD j default)) 3
      (fun j _ => rfl) i hi
  have hrow2 : ∀ i, i < n →
      rowAt (sortedCols preFRest e).length (stackColsMat n (sortedCols preFRest e)).data i
        = (sortedCols preFRest e).map (fun c => c.getD i default) := by
    intro i hi
    exact rowAt_flatMap n _ (sortedCols preFRest e).length
      (fun j _ => List.length_map _ _) i hi
  have hdata : ((List.range n).flatMap fun i =>
        rowAt 3 (stackColsMat n [d0, d1, d2]).data i ++
          rowAt (sortedCols preFRest e).length (stackColsMat n (sortedCols preFRest e)).data i)
      = (List.range n).flatMap (fun i =>
          [d0.getD i default, d1.getD i default, d2.getD i default]
            ++ (sortedCols preFRest e).map (fun c => c.getD i default)) :=
    flatMap_congr_range n _ _ (fun i hi => by rw [hrow1 i hi, hrow2 i hi])
  rw [hdata]
  have hlen : ∀ i, i < n →
      ([d0.getD i default, d1.getD i default, d2.getD i default]
        ++ (sortedCols preFRest e).map (fun c => c.getD i default)).length
      = 3 + (sortedCols preFRest e).length := by
    intro i hi
    simp
    omega
  have hgr : getRows ([n, 3 + (sortedCols preFRest e).length].headD 0)
      ([n, 3 + (sortedCols preFRest e).length].getD 1 0)
      ((List.range n).flatMap (fun i =>
          [d0.getD i default, d1.getD i default, d2.getD i default]
            ++ (sortedCols preFRest e).map (fun c => c.getD i default)))
      = (List.range n).map (fun i =>
          [d0.getD i default, d1.getD i default, d2.getD i default]
            ++ (sortedCols preFRest e).map (fun c => c.getD i default)) := by
    exact getRows_flatMap n _ (3 + (sortedCols preFRest e).length) hlen
  rw [hgr, tupleRows_stack3, List.zip_map']
  rw [if_pos (by simp)]
  refine congrArg Except.ok (List.map_congr_left ?_)
  intro i hi
  simp only [sortedCols, List.map_map]
  rfl

/-- C8 counterexample: the valid one-point cloud decodes, but `as_table`
raises (ValueError from `np.concatenate`) instead of producing a one-row
table, because the squeezed base-color array is one-dimensional. -/
theorem C8_counterexample :
    (PlyWrapper.init fs0 (Source.plyData onePointPly)).map
      (fun w => (PlyWrapper.get_sh_coeffs_standardized_format w).isOk)
      = Except.ok false := by
  decide

/-- C8 witness: the decoded two-point sample tabulates to two rows keyed
by their coordinate triples, base color first, then the one higher-order
column. -/
theorem C8_witness :
    ∃ w, PlyWrapper.init fs0 (Source.plyData samplePly) = Except.ok w ∧
      PlyWrapper.get_sh_coeffs_standardized_format w = Except.ok
        [((1, 3, 5), [9, 11, 13, 15]), ((2, 4, 6), [10, 12, 14, 16])] := by
  obtain ⟨w, hw, ht⟩ := C8_table_rows fs0 samplePly sampleElem [] 2
    [1, 2] [3, 4] [5, 6] [7, 8] [9, 10] [11, 12] [13, 14] rfl (by decide)
    (by decide) (by decide) (by decide) (by decide) (by decide) (by decide) (by decide)
    (by decide) (by decide)
  exact ⟨w, hw, ht.trans (by decide)⟩
